import Mathlib

/-!
Shallow embedding of the Chinese_NER utility scripts, centred on the OCR
record builder `convert_excel.py` (functions `infer_book_and_volume`,
`build_id`, `load_rows`, `write_csv`, `main`) together with the page-range
validation of the two PDF renderers (`convert_image.py` /
`Source/pdf_to_preprocessed_image.py`).

Python strings are modelled as Lean `String`; where the embedding needs to
compute character by character it works on `String.data` (the underlying
`List Char`), which is extensionally the same thing.  Python machine
integers are unbounded, as are Lean `Int`/`Nat`, so no modular arithmetic
is needed anywhere in this code base.
-/

/-- Json values as they can occur in the OCR result file.  Numbers are
modelled as integers (the OCR polygons in this pipeline are integer pixel
coordinates); floating point numbers do not occur in the fields the record
builder reads. -/
inductive Json where
  | null : Json
  | bool : Bool → Json
  | num : Int → Json
  | str : String → Json
  | arr : List Json → Json

/-- Truthiness of a Json value under Python rules: `None`, `False`, `0`,
`""` and `[]` are falsy, everything else truthy. -/
def pyTruthy : Json → Bool
  | .null => false
  | .bool b => b
  | .num n => n != 0
  | .str s => s != ""
  | .arr xs => !xs.isEmpty

/-- Hexadecimal digit character, lower case, as used by `json.dumps` for
control-character escapes. -/
def hexDigitChar (n : Nat) : Char :=
  if n < 10 then Char.ofNat (48 + n) else Char.ofNat (87 + (n - 10))

/-- Escape of one character inside a Json string literal, following
`json.dumps` with `ensure_ascii=False` (only the mandatory escapes). -/
def jsonEscapeChar (c : Char) : List Char :=
  if c = '"' then ['\\', '"']
  else if c = '\\' then ['\\', '\\']
  else if c = '\n' then ['\\', 'n']
  else if c = '\t' then ['\\', 't']
  else if c = '\r' then ['\\', 'r']
  else if c = '\x08' then ['\\', 'b']
  else if c = '\x0c' then ['\\', 'f']
  else if c.toNat < 32 then
    ['\\', 'u', hexDigitChar (c.toNat / 4096 % 16), hexDigitChar (c.toNat / 256 % 16),
      hexDigitChar (c.toNat / 16 % 16), hexDigitChar (c.toNat % 16)]
  else [c]

mutual

/-- Model of `json.dumps(v, ensure_ascii=False)` with the default
separators: lists are rendered as `[a, b, c]`. -/
def dumps : Json → String
  | .null => "null"
  | .bool b => if b then "true" else "false"
  | .num n => toString n
  | .str s => String.mk ('"' :: (s.data.flatMap jsonEscapeChar) ++ ['"'])
  | .arr xs => "[" ++ dumpsList xs ++ "]"

/-- Comma-space separated rendering of a list of Json values. -/
def dumpsList : List Json → String
  | [] => ""
  | [x] => dumps x
  | x :: y :: xs => dumps x ++ ", " ++ dumpsList (y :: xs)

end

/-- Whitespace test matching Python `str.isspace` for the characters that
`str.strip()` removes (ASCII whitespace, the C1 separators, and the
common Unicode space characters). -/
def pyIsSpace (c : Char) : Bool :=
  c = ' ' || c = '\t' || c = '\n' || c = '\r' || c = '\x0b' || c = '\x0c' ||
  (0x1c ≤ c.toNat && c.toNat ≤ 0x1f) || c.toNat = 0x85 || c.toNat = 0xa0 ||
  c.toNat = 0x1680 || (0x2000 ≤ c.toNat && c.toNat ≤ 0x200a) ||
  c.toNat = 0x2028 || c.toNat = 0x2029 || c.toNat = 0x202f ||
  c.toNat = 0x205f || c.toNat = 0x3000

/-- Model of Python `str.strip()`: remove leading and trailing whitespace. -/
def pyStrip (s : String) : String :=
  String.mk (((s.data.dropWhile pyIsSpace).reverse.dropWhile pyIsSpace).reverse)

/-- Model of Python `str.split(sep)` for a one-character separator:
splitting the empty string yields `[""]`, consecutive separators yield
empty pieces, and the result always has (number of separators + 1)
pieces. -/
def splitOnChar (sep : Char) : List Char → List (List Char)
  | [] => [[]]
  | c :: rest =>
    if c = sep then [] :: splitOnChar sep rest
    else
      match splitOnChar sep rest with
      | [] => [[c]]
      | h :: t => (c :: h) :: t

/-- Model of Python `sep.join(parts)` for a one-character separator. -/
def joinChar (sep : Char) : List (List Char) → List Char
  | [] => []
  | [p] => p
  | p :: q :: rest => p ++ sep :: joinChar sep (q :: rest)

/-- Model of Python `str.isdigit` restricted to ASCII decimal digits (the
only digits `int(...)` accepts anyway): true iff the string is non-empty
and all of its characters are decimal digits. -/
def pyIsDigitStr (l : List Char) : Bool :=
  !l.isEmpty && l.all Char.isDigit

/-- Value of a decimal digit string, most significant digit first; this is
the model of Python `int(...)` on a string of ASCII digits. -/
def decValue (l : List Char) : Nat :=
  l.foldl (fun a c => 10 * a + (c.toNat - 48)) 0

/-- Model of Python `str.zfill(width)`: left-fill with ASCII `0` up to
`width` characters, inserting the padding after a leading sign character.
A width no larger than the length leaves the string unchanged (in
particular a negative Python width behaves like width 0, so `Nat`
faithfully covers the `int` parameter). -/
def zfill (s : String) (width : Nat) : String :=
  if width ≤ s.length then s
  else
    match s.data with
    | [] => String.mk (List.replicate width '0')
    | c :: rest =>
      if c = '-' || c = '+' then
        String.mk (c :: (List.replicate (width - s.length) '0' ++ rest))
      else
        String.mk (List.replicate (width - s.length) '0' ++ s.data)

/-- Embedding of `build_id` from `convert_excel.py`: the dotted composite
identifier `{book_code}.{volume}.{page}.{column}` with each numeric
component rendered by `str(...)` and padded by `str.zfill`. -/
def build_id (book_code : String) (volume page column_idx : Int)
    (volume_pad page_pad column_pad : Nat) : String :=
  let volume_part := zfill (toString volume) volume_pad
  let page_part := zfill (toString page) page_pad
  let column_part := zfill (toString column_idx) column_pad
  book_code ++ "." ++ volume_part ++ "." ++ page_part ++ "." ++ column_part

/-- Parsed shape of the OCR result Json that `convert_excel.py` reads:
`json_data.get("input_path")` is `none` when the key is absent, and the
two `json_data.get(key, [])` list fields are `none` when absent (the
`.getD []` at the use sites models the Python default argument). -/
structure OcrJson where
  input_path : Option String
  rec_texts : Option (List Json)
  rec_polys : Option (List Json)

/-- Cleaned text of one `rec_texts` entry:
`text.strip() if isinstance(text, str) else ""`. -/
def cleanText : Json → String
  | .str s => pyStrip s
  | _ => ""

/-- Embedding of `rec_polys[idx - 1] if idx - 1 < len(rec_polys) else None`
from `load_rows` (with the 1-based `idx` of `enumerate(rec_texts, start=1)`). -/
def boxAt (rec_polys : List Json) (idx : Nat) : Option Json :=
  if h : idx - 1 < rec_polys.length then some (rec_polys.get ⟨idx - 1, h⟩) else none

/-- Embedding of `json.dumps(box, ensure_ascii=False) if box else ""`,
where the absent box (`None`) is falsy. -/
def serializeBox : Option Json → String
  | some b => if pyTruthy b then dumps b else ""
  | none => ""

/-- One output record of the record builder, with the four columns
`ID`, `Image_name`, `Han Char`, `Image Box`. -/
structure Row where
  id : String
  image_name : String
  han_char : String
  image_box : String
deriving DecidableEq

/-- Loop body of `load_rows`: walk `rec_texts` carrying the 1-based
enumeration index, dropping entries whose cleaned text is empty unless
`include_empty` is set. -/
def loadRowsAux (book_code : String) (volume page : Int) (include_empty : Bool)
    (volume_pad page_pad column_pad : Nat) (image_name : String)
    (rec_polys : List Json) : Nat → List Json → List Row
  | _, [] => []
  | idx, text :: rest =>
    let cleaned := cleanText text
    if cleaned = "" && !include_empty then
      loadRowsAux book_code volume page include_empty volume_pad page_pad column_pad
        image_name rec_polys (idx + 1) rest
    else
      { id := build_id book_code volume page (Int.ofNat idx) volume_pad page_pad column_pad
        image_name := image_name
        han_char := cleaned
        image_box := serializeBox (boxAt rec_polys idx) } ::
      loadRowsAux book_code volume page include_empty volume_pad page_pad column_pad
        image_name rec_polys (idx + 1) rest

/-- Embedding of `load_rows` from `convert_excel.py`. -/
def load_rows (json_data : OcrJson) (book_code : String) (volume page : Int)
    (include_empty : Bool) (volume_pad page_pad column_pad : Nat) : List Row :=
  let rec_texts := json_data.rec_texts.getD []
  let rec_polys := json_data.rec_polys.getD []
  let image_name := book_code ++ "_page_" ++ zfill (toString page) page_pad ++ ".png"
  loadRowsAux book_code volume page include_empty volume_pad page_pad column_pad
    image_name rec_polys 1 rec_texts

/-- Embedding of the stem-analysis part of `infer_book_and_volume` from
`convert_excel.py`, taking the already-computed `candidate_stem`
(`Path(candidate_path).stem` in the source; the path-library stem
extraction is applied at the call site in the `main` model).  Splits on
underscore; a digit-only last segment becomes the volume and the joined
remaining segments the book code, falling back to the whole stem when
that join is empty (`"_".join(parts[:-1]) or candidate_stem`). -/
def infer_book_and_volume (candidate_stem : String) : String × Int :=
  let parts := splitOnChar '_' candidate_stem.data
  match parts.getLast? with
  | some last =>
    if pyIsDigitStr last then
      let book_code := String.mk (joinChar '_' parts.dropLast)
      (if book_code = "" then candidate_stem else book_code, Int.ofNat (decValue last))
    else (candidate_stem, 1)
  | none => (candidate_stem, 1)

/-- Quoting of one CSV field under the default Python `csv` dialect
(QUOTE_MINIMAL): a field is wrapped in double quotes, with embedded
quotes doubled, exactly when it contains the delimiter, the quote
character, or a line-terminator character. -/
def csvEscapeQuotes : List Char → List Char
  | [] => []
  | c :: rest =>
    if c = '"' then '"' :: '"' :: csvEscapeQuotes rest else c :: csvEscapeQuotes rest

/-- Minimal-quoting rule of the default CSV dialect. -/
def csvNeedsQuote (l : List Char) : Bool :=
  l.any (fun c => c = ',' || c = '"' || c = '\n' || c = '\r')

/-- Rendering of one CSV field. -/
def csvField (s : String) : String :=
  if csvNeedsQuote s.data then String.mk ('"' :: csvEscapeQuotes s.data ++ ['"']) else s

/-- Rendering of one CSV record with the default `\r\n` line terminator. -/
def csvLine : List String → String
  | [] => "\r\n"
  | [f] => csvField f ++ "\r\n"
  | f :: g :: rest => csvField f ++ "," ++ csvLine (g :: rest)

/-- Column order fixed by `main` in `convert_excel.py`. -/
def csvColumns : List String := ["ID", "Image_name", "Han Char", "Image Box"]

/-- Byte content written by `write_csv` in `convert_excel.py`: the
`utf-8-sig` byte-order mark, the header line, then one line per row with
the fields in `csvColumns` order (`csv.DictWriter.writeheader` /
`writerows` with the default dialect). -/
def write_csv_string (rows : List Row) : String :=
  "﻿" ++ csvLine csvColumns ++
    String.join (rows.map fun r => csvLine [r.id, r.image_name, r.han_char, r.image_box])

/-- Highest index of `c` in the list, if any (model of Python
`str.rfind`). -/
def lastIdxOf (c : Char) : List Char → Option Nat
  | [] => none
  | x :: xs =>
    match lastIdxOf c xs with
    | some i => some (i + 1)
    | none => if x = c then some 0 else none

/-- Stem of the final component of a POSIX path, following CPython
`pathlib`: the name is the last non-empty slash-separated component, and
the suffix starting at the last dot is removed only when that dot is
neither the first nor the last character of the name. -/
def pathStem (p : String) : String :=
  let name := ((splitOnChar '/' p.data).filter (fun part => !part.isEmpty)).getLastD []
  match lastIdxOf '.' name with
  | some i => if 0 < i && i + 1 < name.length then String.mk (name.take i) else String.mk name
  | none => String.mk name

/-- Model of the Python truthiness fallback `a or b` on an optional
string: an absent or empty left operand selects the right operand. -/
def orStr (a : Option String) (b : String) : String :=
  match a with
  | some s => if s = "" then b else s
  | none => b

/-- Command-line arguments of `convert_excel.py` that influence the
computation after argument parsing (paths excluded; they are passed to
the `main` model separately). Defaults mirror `parse_args`. -/
structure Args where
  book_code : Option String
  book_code_arg : Option String
  base_book_code : String
  volume : Option Int
  page : Int
  include_empty : Bool
  volume_pad : Nat
  page_pad : Nat
  column_pad : Nat

/-- Outcome of one run of the record builder `main`: a fatal `sys.exit`
with a message (nothing read or written), a clean early return with the
empty-result notice (no file written), or a CSV file written with the
given name and byte content. -/
inductive MainResult where
  | fatalExit (msg : String)
  | emptyResult (msg : String)
  | wroteCsv (csv_name : String) (content : String)

/-- Book code actually used by `main`: the truthiness chain
`args.book_code or args.book_code_arg or inferred_book or args.base_book_code`. -/
def resolvedBookCode (args : Args) (inferred_book : String) : String :=
  orStr args.book_code (orStr args.book_code_arg (orStr (some inferred_book) args.base_book_code))

/-- Candidate stem fed to the inference: `json_data.get("input_path") or
json_path.stem`, then `Path(candidate_path).stem` (from
`infer_book_and_volume` in the source). -/
def candidateStem (json_data : OcrJson) (json_path : String) : String :=
  pathStem (orStr json_data.input_path (pathStem json_path))

/-- Rows computed by `main` after resolving book code, volume and page. -/
def mainRows (json_data : OcrJson) (json_path : String) (args : Args) : List Row :=
  let inferred := infer_book_and_volume (candidateStem json_data json_path)
  let book_code := resolvedBookCode args inferred.1
  let volume := args.volume.getD inferred.2
  load_rows json_data book_code volume args.page args.include_empty
    args.volume_pad args.page_pad args.column_pad

/-- Embedding of `main` from `convert_excel.py` over an abstract file
system: `json_exists` states whether `json_path` exists, and `json_data`
is the parsed content when it does.  A missing file is a fatal
`sys.exit` before any read or write; zero surviving rows cause the
non-fatal empty-result message and no file; otherwise the CSV content is
written to `{book_code}_{zfill(volume)}.csv`. -/
def main_model (json_exists : Bool) (json_path : String) (json_data : OcrJson)
    (args : Args) : MainResult :=
  if !json_exists then
    .fatalExit ("Input JSON not found: " ++ json_path)
  else
    let inferred := infer_book_and_volume (candidateStem json_data json_path)
    let book_code := resolvedBookCode args inferred.1
    let volume := args.volume.getD inferred.2
    let rows := mainRows json_data json_path args
    if rows.isEmpty then
      .emptyResult "No rows generated (all OCR entries were empty)."
    else
      let base_name := book_code ++ "_" ++ zfill (toString volume) args.volume_pad
      .wroteCsv (base_name ++ ".csv") (write_csv_string rows)

/-- Outcome of `convert_pdf_page_to_image` in `convert_image.py`: the
missing-file message printed by the `except FileNotFoundError` handler,
the out-of-range message printed before any rendering, or a successful
save to the output path. -/
inductive PageToImageResult where
  | fileNotFound (msg : String)
  | outOfRange (msg : String)
  | saved (output_image_path : String)

/-- Embedding of `convert_pdf_page_to_image` from `convert_image.py` over
an abstract PDF: `pdf_exists` states whether `pdf_path` exists and
`num_pages` is `len(doc)`.  The page guard is
`0 <= page_number < len(doc)`; a failed guard reports the error and
returns before rendering, so no file is written. -/
def convert_pdf_page_to_image (pdf_exists : Bool) (pdf_path : String) (num_pages : Nat)
    (page_number : Int) (output_image_path : String) : PageToImageResult :=
  if !pdf_exists then
    .fileNotFound ("Error: PDF file not found at " ++ pdf_path)
  else if 0 ≤ page_number && page_number < (num_pages : Int) then
    .saved output_image_path
  else
    .outOfRange ("Error: Page number " ++ toString page_number ++ " is out of range.")

/-- Errors raised by `convert_pdf_to_image` in
`Source/pdf_to_preprocessed_image.py`. -/
inductive PdfError where
  | fileNotFound (msg : String)
  | valueError (msg : String)

/-- Abstract rendered page returned on success (the actual pixel array is
produced by the external PDF library). -/
structure RenderedImage where
  page_num : Int
  zoom : ℚ

/-- Embedding of `convert_pdf_to_image` from
`Source/pdf_to_preprocessed_image.py`: missing file raises
`FileNotFoundError`, a non-positive zoom raises `ValueError`, and a page
index outside `0 <= page_num < len(doc)` raises `ValueError` before any
rendering.  The float zoom is modelled as a rational; the function only
compares it with zero. -/
def convert_pdf_to_image (pdf_exists : Bool) (pdf_path : String) (num_pages : Nat)
    (page_num : Int) (zoom : ℚ) : Except PdfError RenderedImage :=
  if !pdf_exists then
    .error (.fileNotFound ("Không tìm thấy tệp PDF tại: " ++ pdf_path))
  else if zoom ≤ 0 then
    .error (.valueError "Giá trị zoom phải lớn hơn 0.")
  else if !(0 ≤ page_num && page_num < (num_pages : Int)) then
    .error (.valueError ("Số trang không hợp lệ. PDF có " ++ toString num_pages ++
      " trang, nhưng bạn yêu cầu trang " ++ toString (page_num + 1) ++ "."))
  else
    .ok ⟨page_num, zoom⟩

/-! ### Decimal rendering: value correctness and injectivity of `Nat.repr` -/

/-- Two strings with the same character data are equal. -/
theorem string_data_inj {a b : String} (h : a.data = b.data) : a = b := by
  cases a; cases b; congr 1

/-- Character data of an appended string. -/
theorem string_append_data (a b : String) : (a ++ b).data = a.data ++ b.data := by
  cases a; cases b; rfl

/-- Accumulator lemma for the core decimal renderer. -/
theorem toDigitsCore_append (fuel : Nat) :
    ∀ (n : Nat) (ds : List Char),
      Nat.toDigitsCore 10 fuel n ds = Nat.toDigitsCore 10 fuel n [] ++ ds := by
  induction fuel with
  | zero => intro n ds; simp [Nat.toDigitsCore]
  | succ f ih =>
    intro n ds
    simp only [Nat.toDigitsCore]
    by_cases h : n / 10 = 0
    · simp [h]
    · simp only [h, if_false]
      rw [ih (n / 10) (Nat.digitChar (n % 10) :: ds), ih (n / 10) [Nat.digitChar (n % 10)]]
      simp

/-- Digit characters below ten are decimal digits. -/
theorem digitChar_isDigit (d : Nat) (h : d < 10) : (Nat.digitChar d).isDigit = true := by
  interval_cases d <;> decide

/-- Digit characters below ten decode back to their value. -/
theorem digitChar_sub_48 (d : Nat) (h : d < 10) : (Nat.digitChar d).toNat - 48 = d := by
  interval_cases d <;> decide

/-- Decimal value of a digit list extended by one digit on the right. -/
theorem decValue_append_singleton (xs : List Char) (c : Char) :
    decValue (xs ++ [c]) = 10 * decValue xs + (c.toNat - 48) := by
  simp [decValue, List.foldl_append]

/-- Value correctness of the core decimal renderer, given enough fuel. -/
theorem decValue_toDigitsCore (fuel : Nat) :
    ∀ n : Nat, n < fuel → decValue (Nat.toDigitsCore 10 fuel n []) = n := by
  induction fuel with
  | zero => intro n h; omega
  | succ f ih =>
    intro n h
    simp only [Nat.toDigitsCore]
    by_cases h0 : n / 10 = 0
    · simp only [h0, if_true]
      have hn : n < 10 := by omega
      have hd := digitChar_sub_48 (n % 10) (Nat.mod_lt n (by norm_num))
      simp only [decValue, List.foldl_cons, List.foldl_nil]
      rw [hd, Nat.mod_eq_of_lt hn]
      omega
    · simp only [h0, if_false]
      rw [toDigitsCore_append, decValue_append_singleton,
        digitChar_sub_48 (n % 10) (Nat.mod_lt _ (by norm_num)),
        ih (n / 10) (by
          have hn : n ≠ 0 := fun hn => h0 (by simp [hn])
          have := Nat.div_lt_self (Nat.pos_of_ne_zero hn) (by norm_num : 1 < 10)
          omega)]
      omega

/-- All characters emitted by the core decimal renderer are digits. -/
theorem toDigitsCore_all_digits (fuel : Nat) :
    ∀ (n : Nat) (ds : List Char), (∀ c ∈ ds, c.isDigit = true) →
      ∀ c ∈ Nat.toDigitsCore 10 fuel n ds, c.isDigit = true := by
  induction fuel with
  | zero => intro n ds hds; simpa [Nat.toDigitsCore] using hds
  | succ f ih =>
    intro n ds hds
    simp only [Nat.toDigitsCore]
    by_cases h0 : n / 10 = 0
    · simp only [h0, if_true]
      intro c hc
      rcases List.mem_cons.mp hc with rfl | hc
      · exact digitChar_isDigit _ (Nat.mod_lt _ (by norm_num))
      · exact hds _ hc
    · simp only [h0, if_false]
      refine ih (n / 10) _ ?_
      intro c hc
      rcases List.mem_cons.mp hc with rfl | hc
      · exact digitChar_isDigit _ (Nat.mod_lt _ (by norm_num))
      · exact hds _ hc

/-- The core decimal renderer never returns the empty list when given fuel. -/
theorem toDigitsCore_ne_nil (fuel : Nat) :
    ∀ (n : Nat) (ds : List Char), fuel ≠ 0 → Nat.toDigitsCore 10 fuel n ds ≠ [] := by
  induction fuel with
  | zero => intro n ds h; exact absurd rfl h
  | succ f ih =>
    intro n ds _
    simp only [Nat.toDigitsCore]
    by_cases h0 : n / 10 = 0
    · simp [h0]
    · simp only [h0, if_false]
      by_cases hf : f = 0
      · subst hf; simp [Nat.toDigitsCore]
      · exact ih (n / 10) _ hf

/-- Data of the decimal rendering of a natural number. -/
theorem nat_repr_data (n : Nat) : (Nat.repr n).data = Nat.toDigitsCore 10 (n + 1) n [] := rfl

/-- Reading the decimal rendering back yields the number. -/
theorem decValue_repr (n : Nat) : decValue (Nat.repr n).data = n := by
  rw [nat_repr_data]
  exact decValue_toDigitsCore (n + 1) n (Nat.lt_succ_self n)

/-- Every character of the decimal rendering is a digit. -/
theorem repr_all_digits (n : Nat) : ∀ c ∈ (Nat.repr n).data, c.isDigit = true := by
  rw [nat_repr_data]
  exact toDigitsCore_all_digits _ _ _ (by simp)

/-- The decimal rendering is never empty. -/
theorem repr_ne_nil (n : Nat) : (Nat.repr n).data ≠ [] := by
  rw [nat_repr_data]
  exact toDigitsCore_ne_nil _ _ _ (Nat.succ_ne_zero n)

/-! ### Properties of `zfill` -/

/-- On a string whose characters are all digits (so with no leading sign),
`zfill` prepends exactly `width - length` zero characters; with a width no
larger than the length it prepends none.  Padding only ever adds
characters to the left of the original data. -/
theorem zfill_all_digits (s : String) (w : Nat) (hne : s.data ≠ [])
    (hd : ∀ c ∈ s.data, c.isDigit = true) :
    zfill s w = String.mk (List.replicate (w - s.length) '0' ++ s.data) := by
  unfold zfill
  split
  · next hw =>
    have hz : w - s.length = 0 := by omega
    rw [hz]
    cases s
    simp
  · next hw =>
    split
    · next heq => exact absurd heq hne
    · next c rest heq =>
      have hc : c.isDigit = true := hd c (by rw [heq]; exact List.mem_cons_self c rest)
      have h1 : c ≠ '-' := by rintro rfl; exact absurd hc (by decide)
      have h2 : c ≠ '+' := by rintro rfl; exact absurd hc (by decide)
      have hns : (c = '-' || c = '+') = false := by simp [h1, h2]
      rw [hns]
      simp

/-- Padding form of the decimal rendering of a natural number. -/
theorem zfill_repr (n w : Nat) :
    zfill (Nat.repr n) w =
      String.mk (List.replicate (w - (Nat.repr n).length) '0' ++ (Nat.repr n).data) :=
  zfill_all_digits _ _ (repr_ne_nil n) (repr_all_digits n)

/-- Leading zero characters do not change the decimal value. -/
theorem decValue_replicate_zero_append (k : Nat) (l : List Char) :
    decValue (List.replicate k '0' ++ l) = decValue l := by
  induction k with
  | zero => rfl
  | succ k ih =>
    simp only [List.replicate_succ, List.cons_append, decValue, List.foldl_cons] at *
    have h0 : 10 * 0 + ('0'.toNat - 48) = 0 := by decide
    rw [h0]
    exact ih

/-- Zero-padded decimal renderings of equal width determine the number:
the key uniqueness fact behind distinct composite IDs. -/
theorem zfill_repr_inj {i j w : Nat}
    (h : zfill (Nat.repr i) w = zfill (Nat.repr j) w) : i = j := by
  rw [zfill_repr, zfill_repr] at h
  have h2 := congrArg (fun s : String => decValue s.data) h
  simpa [decValue_replicate_zero_append, decValue_repr] using h2

/-- Length of a string is the length of its character data. -/
theorem string_length_data (s : String) : s.length = s.data.length := rfl

/-- Length of a string built from character data. -/
theorem string_mk_length (l : List Char) : (String.mk l).length = l.length := rfl

theorem zfill_length (s : String) (w : Nat) :
    (zfill s w).length = max w s.length := by
  unfold zfill
  split
  · next hw => omega
  · next hw =>
    split
    · next heq =>
      have h0 : s.length = 0 := by rw [string_length_data, heq]; rfl
      rw [string_mk_length, List.length_replicate]
      omega
    · next c rest heq =>
      have hlen : s.length = rest.length + 1 := by
        rw [string_length_data, heq, List.length_cons]
      split
      · rw [string_mk_length, List.length_cons, List.length_append, List.length_replicate]
        omega
      · rw [string_mk_length, List.length_append, List.length_replicate,
          ← string_length_data]
        omega

/-! ### Structural lemmas about `build_id` and `loadRowsAux` -/

/-- Rendering a non-negative machine integer is rendering the natural. -/
theorem toString_intOfNat (k : Nat) : toString (Int.ofNat k) = Nat.repr k := rfl

/-- With book code, volume, page and pad widths fixed, the composite ID
determines the column index. -/
theorem build_id_inj_column (bc : String) (v p : Int) (i j : Nat) (vp pp cp : Nat)
    (h : build_id bc v p (Int.ofNat i) vp pp cp = build_id bc v p (Int.ofNat j) vp pp cp) :
    i = j := by
  unfold build_id at h
  have hdata := congrArg String.data h
  simp only [string_append_data, toString_intOfNat, List.append_assoc] at hdata
  replace hdata := List.append_cancel_left hdata
  replace hdata := List.append_cancel_left hdata
  replace hdata := List.append_cancel_left hdata
  replace hdata := List.append_cancel_left hdata
  replace hdata := List.append_cancel_left hdata
  replace hdata := List.append_cancel_left hdata
  exact zfill_repr_inj (string_data_inj hdata)

/-- Every row produced by the loop carries an ID built from a column index
no smaller than the running index. -/
theorem loadRowsAux_id_mem (bc : String) (v p : Int) (ie : Bool) (vp pp cp : Nat)
    (img : String) (polys : List Json) :
    ∀ (texts : List Json) (idx : Nat) (r : Row),
      r ∈ loadRowsAux bc v p ie vp pp cp img polys idx texts →
      ∃ i, idx ≤ i ∧ r.id = build_id bc v p (Int.ofNat i) vp pp cp := by
  intro texts
  induction texts with
  | nil => intro idx r h; simp [loadRowsAux] at h
  | cons t ts ih =>
    intro idx r h
    simp only [loadRowsAux] at h
    split at h
    · obtain ⟨i, hi, hr⟩ := ih (idx + 1) r h
      exact ⟨i, by omega, hr⟩
    · rcases List.mem_cons.mp h with rfl | h
      · exact ⟨idx, Nat.le_refl _, rfl⟩
      · obtain ⟨i, hi, hr⟩ := ih (idx + 1) r h
        exact ⟨i, by omega, hr⟩

/-- Composite IDs produced by the loop are pairwise distinct: the column
index is the position in `rec_texts` and strictly increases. -/
theorem loadRowsAux_ids_nodup (bc : String) (v p : Int) (ie : Bool) (vp pp cp : Nat)
    (img : String) (polys : List Json) :
    ∀ (texts : List Json) (idx : Nat),
      ((loadRowsAux bc v p ie vp pp cp img polys idx texts).map Row.id).Nodup := by
  intro texts
  induction texts with
  | nil => intro idx; simp [loadRowsAux]
  | cons t ts ih =>
    intro idx
    simp only [loadRowsAux]
    split
    · exact ih (idx + 1)
    · simp only [List.map_cons, List.nodup_cons]
      refine ⟨?_, ih (idx + 1)⟩
      intro hmem
      obtain ⟨r, hr, hid⟩ := List.mem_map.mp hmem
      obtain ⟨i, hi, hri⟩ :=
        loadRowsAux_id_mem bc v p ie vp pp cp img polys ts (idx + 1) r hr
      have : i = idx := build_id_inj_column bc v p i idx vp pp cp (by rw [← hri, hid])
      omega

/-- Number of rows produced by the loop: everything when `include_empty`,
otherwise one row per entry with non-empty cleaned text. -/
theorem loadRowsAux_length (bc : String) (v p : Int) (ie : Bool) (vp pp cp : Nat)
    (img : String) (polys : List Json) :
    ∀ (texts : List Json) (idx : Nat),
      (loadRowsAux bc v p ie vp pp cp img polys idx texts).length =
        if ie then texts.length
        else texts.countP (fun t => !(cleanText t == "")) := by
  intro texts
  induction texts with
  | nil => intro idx; simp [loadRowsAux]
  | cons t ts ih =>
    intro idx
    simp only [loadRowsAux, List.countP_cons]
    by_cases hie : ie
    · subst hie
      by_cases hcl : cleanText t = "" <;>
        simp [hcl, ih (idx + 1)]
    · replace hie : ie = false := by simpa using hie
      subst hie
      by_cases hcl : cleanText t = "" <;>
        simp [hcl, ih (idx + 1)]

/-- Every row produced by the loop carries the synthesized image name. -/
theorem loadRowsAux_image_name (bc : String) (v p : Int) (ie : Bool) (vp pp cp : Nat)
    (img : String) (polys : List Json) :
    ∀ (texts : List Json) (idx : Nat) (r : Row),
      r ∈ loadRowsAux bc v p ie vp pp cp img polys idx texts →
      r.image_name = img := by
  intro texts
  induction texts with
  | nil => intro idx r h; simp [loadRowsAux] at h
  | cons t ts ih =>
    intro idx r h
    simp only [loadRowsAux] at h
    split at h
    · exact ih (idx + 1) r h
    · rcases List.mem_cons.mp h with rfl | h
      · rfl
      · exact ih (idx + 1) r h

/-- The guarded polygon access of `load_rows` is exactly the total
optional lookup at `idx - 1`. -/
theorem boxAt_eq_getElem? (polys : List Json) (i : Nat) : boxAt polys i = polys[i - 1]? := by
  unfold boxAt
  split
  · next h => rw [List.getElem?_eq_getElem h, List.get_eq_getElem]
  · next h => rw [List.getElem?_eq_none (by omega)]

/-- The loop is the filter-map of the 1-based enumeration of `rec_texts`,
each entry paired with the optional polygon at the same position. -/
theorem loadRowsAux_eq_filterMap (bc : String) (v p : Int) (ie : Bool) (vp pp cp : Nat)
    (img : String) (polys : List Json) :
    ∀ (texts : List Json) (idx : Nat),
      loadRowsAux bc v p ie vp pp cp img polys idx texts =
        ((List.range' idx texts.length).zip texts).filterMap (fun pr =>
          if cleanText pr.2 = "" && !ie then none
          else some { id := build_id bc v p (Int.ofNat pr.1) vp pp cp
                      image_name := img
                      han_char := cleanText pr.2
                      image_box := serializeBox polys[pr.1 - 1]? }) := by
  intro texts
  induction texts with
  | nil => intro idx; simp [loadRowsAux]
  | cons t ts ih =>
    intro idx
    have hr : List.range' idx (t :: ts).length = idx :: List.range' (idx + 1) ts.length := rfl
    rw [hr]
    simp only [loadRowsAux, List.zip_cons_cons, List.filterMap_cons]
    split
    · next hcond => simp [hcond, ih (idx + 1)]
    · next hcond =>
      have hcond' : (decide (cleanText t = "") && !ie) = false := by
        simpa using hcond
      simp only [hcond', Bool.false_eq_true, if_false]
      rw [ih (idx + 1), boxAt_eq_getElem?]

/-- Splitting never yields an empty list of pieces (there are always
separator-count + 1 pieces), mirroring Python `str.split`. -/
theorem splitOnChar_ne_nil (sep : Char) (l : List Char) : splitOnChar sep l ≠ [] := by
  induction l with
  | nil => simp [splitOnChar]
  | cons c rest ih =>
    simp only [splitOnChar]
    split
    · simp
    · split
      · simp
      · simp

/-! ### Claim theorems -/

/-- C1: for every OCR JSON input, with the include-empty flag off
`load_rows` returns exactly one row per `rec_texts` entry whose cleaned
(whitespace-trimmed) text is non-empty, non-string entries counting as
empty; with the flag on it returns one row per entry. -/
theorem load_rows_row_count (j : OcrJson) (bc : String) (v p : Int) (ie : Bool)
    (vp pp cp : Nat) :
    (load_rows j bc v p ie vp pp cp).length =
      if ie then (j.rec_texts.getD []).length
      else (j.rec_texts.getD []).countP (fun t => !(cleanText t == "")) := by
  simp only [load_rows]
  exact loadRowsAux_length bc v p ie vp pp cp _ _ (j.rec_texts.getD []) 1

/-- C2 (counterexample): for the candidate stem "7" the last underscore
segment is a non-negative integer literal and the underscore-joined
remaining prefix is empty, yet `infer_book_and_volume` returns the whole
stem "7" as the book code, not the empty prefix the claim prescribes. -/
theorem infer_book_and_volume_claim_cex :
    pyIsDigitStr ((splitOnChar '_' "7".data).getLastD []) = true ∧
    String.mk (joinChar '_' (splitOnChar '_' "7".data).dropLast) = "" ∧
    infer_book_and_volume "7" ≠ ("", 7) ∧
    infer_book_and_volume "7" = ("7", 7) := by decide

/-- C2 (amended): splitting the stem on underscores, a digit-only last
segment becomes the volume and the underscore-joined remaining prefix the
book code when that prefix is non-empty, the whole stem otherwise; with a
non-digit last segment the whole stem is the book code and the volume is
1.  The stems "giam_cuong_7" and "report" behave as the claim states. -/
theorem infer_book_and_volume_amended :
    (∀ stem : String,
      (pyIsDigitStr ((splitOnChar '_' stem.data).getLastD []) = true →
        infer_book_and_volume stem =
          (if String.mk (joinChar '_' (splitOnChar '_' stem.data).dropLast) = "" then stem
           else String.mk (joinChar '_' (splitOnChar '_' stem.data).dropLast),
           Int.ofNat (decValue ((splitOnChar '_' stem.data).getLastD [])))) ∧
      (pyIsDigitStr ((splitOnChar '_' stem.data).getLastD []) = false →
        infer_book_and_volume stem = (stem, 1))) ∧
    infer_book_and_volume "giam_cuong_7" = ("giam_cuong", 7) ∧
    infer_book_and_volume "report" = ("report", 1) := by
  refine ⟨?_, by decide, by decide⟩
  intro stem
  have hne := splitOnChar_ne_nil '_' stem.data
  cases hl : (splitOnChar '_' stem.data).getLast? with
  | none => exact absurd (List.getLast?_eq_none_iff.mp hl) hne
  | some last =>
    have hD : (splitOnChar '_' stem.data).getLastD [] = last := by
      rw [List.getLastD_eq_getLast?, hl]; rfl
    rw [hD]
    constructor
    · intro hd
      simp only [infer_book_and_volume]
      rw [hl]
      simp [hd]
    · intro hd
      simp only [infer_book_and_volume]
      rw [hl]
      simp [hd]

/-- C3: `build_id` joins the book code and the zero-padded decimal
renderings of volume, page and column with dots; padding only ever adds
characters (never truncates), so column 10 with pad 2 stays "10" and
column 100 with pad 2 stays "100", and the default widths 3/3/2 give
"LSE_001.004.001.01" for ("LSE_001", 4, 1, 1). -/
theorem build_id_zero_padding :
    (∀ (bc : String) (v p c : Int) (vp pp cp : Nat),
        build_id bc v p c vp pp cp =
          bc ++ "." ++ zfill (toString v) vp ++ "." ++ zfill (toString p) pp ++ "." ++
            zfill (toString c) cp) ∧
    (∀ (s : String) (w : Nat), s.length ≤ (zfill s w).length) ∧
    (∀ (c w : Nat), zfill (toString (Int.ofNat c)) w =
        String.mk (List.replicate (w - (Nat.repr c).length) '0' ++ (Nat.repr c).data)) ∧
    zfill "10" 2 = "10" ∧ zfill "100" 2 = "100" ∧
    build_id "LSE_001" 4 1 1 3 3 2 = "LSE_001.004.001.01" := by
  refine ⟨fun bc v p c vp pp cp => rfl, fun s w => ?_, fun c w => ?_,
    by decide, by decide, by decide⟩
  · rw [zfill_length]; omega
  · rw [toString_intOfNat]; exact zfill_repr c w

/-- C4: within one invocation of `load_rows` with fixed book code, volume,
page and pad widths, the composite IDs of the returned rows are pairwise
distinct (each surviving row's column index is its 1-based position in
`rec_texts`, and those positions strictly increase). -/
theorem load_rows_ids_nodup (j : OcrJson) (bc : String) (v p : Int) (ie : Bool)
    (vp pp cp : Nat) :
    ((load_rows j bc v p ie vp pp cp).map Row.id).Nodup := by
  simp only [load_rows]
  exact loadRowsAux_ids_nodup bc v p ie vp pp cp _ _ (j.rec_texts.getD []) 1

/-- C5: a missing input JSON file makes the record builder `main` exit
fatally with a descriptive message before reading or writing anything,
and a parse that yields zero surviving rows makes it report the
non-fatal empty-result message and exit cleanly without writing any
file. -/
theorem main_missing_input_and_empty_rows :
    (∀ (json_path : String) (j : OcrJson) (args : Args),
        main_model false json_path j args =
          .fatalExit ("Input JSON not found: " ++ json_path)) ∧
    (∀ (json_path : String) (j : OcrJson) (args : Args),
        mainRows j json_path args = [] →
          main_model true json_path j args =
            .emptyResult "No rows generated (all OCR entries were empty).") := by
  constructor
  · intro p j args; rfl
  · intro p j args h
    simp [main_model, h]

theorem main_missing_input_and_empty_rows_witness :
    main_model true "missing.json" ⟨none, none, none⟩
        ⟨none, none, "BOOK_BASE", none, 1, false, 3, 3, 2⟩ =
      .emptyResult "No rows generated (all OCR entries were empty)." :=
  main_missing_input_and_empty_rows.2 "missing.json" ⟨none, none, none⟩
    ⟨none, none, "BOOK_BASE", none, 1, false, 3, 3, 2⟩ (by decide)

/-- C6: `load_rows` is the filter-map of the 1-based enumeration of
`rec_texts`, pairing the entry at position `i` with the optional
`rec_polys` entry at `i - 1`; the lookup is the total optional indexing,
so positions beyond the shorter list yield no polygon, which serializes
to the empty string. -/
theorem load_rows_poly_pairing (j : OcrJson) (bc : String) (v p : Int) (ie : Bool)
    (vp pp cp : Nat) :
    load_rows j bc v p ie vp pp cp =
      ((List.range' 1 (j.rec_texts.getD []).length).zip (j.rec_texts.getD [])).filterMap
        (fun pr =>
          if cleanText pr.2 = "" && !ie then none
          else some { id := build_id bc v p (Int.ofNat pr.1) vp pp cp
                      image_name := bc ++ "_page_" ++ zfill (toString p) pp ++ ".png"
                      han_char := cleanText pr.2
                      image_box := serializeBox (j.rec_polys.getD [])[pr.1 - 1]? }) ∧
    (∀ (polys : List Json) (i : Nat), boxAt polys i = polys[i - 1]?) ∧
    serializeBox none = "" := by
  refine ⟨?_, boxAt_eq_getElem?, rfl⟩
  simp only [load_rows]
  exact loadRowsAux_eq_filterMap bc v p ie vp pp cp _ _ (j.rec_texts.getD []) 1

/-- C7: the record builder is deterministic: identical JSON input and
identical parameter values give identical row sequences and hence
byte-identical CSV content. -/
theorem record_builder_deterministic (j1 j2 : OcrJson) (bc1 bc2 : String)
    (v1 v2 p1 p2 : Int) (ie1 ie2 : Bool) (vp1 vp2 pp1 pp2 cp1 cp2 : Nat)
    (hj : j1 = j2) (hbc : bc1 = bc2) (hv : v1 = v2) (hp : p1 = p2) (hie : ie1 = ie2)
    (hvp : vp1 = vp2) (hpp : pp1 = pp2) (hcp : cp1 = cp2) :
    load_rows j1 bc1 v1 p1 ie1 vp1 pp1 cp1 = load_rows j2 bc2 v2 p2 ie2 vp2 pp2 cp2 ∧
    write_csv_string (load_rows j1 bc1 v1 p1 ie1 vp1 pp1 cp1) =
      write_csv_string (load_rows j2 bc2 v2 p2 ie2 vp2 pp2 cp2) := by
  subst hj hbc hv hp hie hvp hpp hcp
  exact ⟨rfl, rfl⟩

theorem record_builder_deterministic_witness :
    load_rows ⟨none, some [.str "a"], none⟩ "B" 1 1 false 1 1 1 =
      load_rows ⟨none, some [.str "a"], none⟩ "B" 1 1 false 1 1 1 ∧
    write_csv_string (load_rows ⟨none, some [.str "a"], none⟩ "B" 1 1 false 1 1 1) =
      write_csv_string (load_rows ⟨none, some [.str "a"], none⟩ "B" 1 1 false 1 1 1) :=
  record_builder_deterministic _ _ _ _ _ _ _ _ _ _ _ _ _ _ _ _
    rfl rfl rfl rfl rfl rfl rfl rfl

/-- C8: a page index at or beyond the page count makes both PDF-to-image
operations fail with an out-of-range condition before rendering, so no
output file is produced: `convert_pdf_page_to_image` reports the error
and returns, and `convert_pdf_to_image` raises `ValueError`. -/
theorem pdf_page_out_of_range (pdf_path out_path : String) (num_pages : Nat)
    (page : Int) (zoom : ℚ) (hpage : (num_pages : Int) ≤ page) (hzoom : 0 < zoom) :
    convert_pdf_page_to_image true pdf_path num_pages page out_path =
      .outOfRange ("Error: Page number " ++ toString page ++ " is out of range.") ∧
    convert_pdf_to_image true pdf_path num_pages page zoom =
      .error (.valueError ("Số trang không hợp lệ. PDF có " ++ toString num_pages ++
        " trang, nhưng bạn yêu cầu trang " ++ toString (page + 1) ++ ".")) := by
  have h1 : ¬ page < (num_pages : Int) := by omega
  have h2 : ¬ zoom ≤ 0 := not_le.mpr hzoom
  constructor
  · simp [convert_pdf_page_to_image, h1]
  · simp [convert_pdf_to_image, h1, h2]

theorem pdf_page_out_of_range_witness :
    convert_pdf_page_to_image true "data/giam_cuong.pdf" 5 5 "content/giam_cuong.png" =
      .outOfRange ("Error: Page number " ++ toString (5 : Int) ++ " is out of range.") ∧
    convert_pdf_to_image true "data/giam_cuong.pdf" 5 5 2 =
      .error (.valueError ("Số trang không hợp lệ. PDF có " ++ toString (5 : Nat) ++
        " trang, nhưng bạn yêu cầu trang " ++ toString ((5 : Int) + 1) ++ ".")) :=
  pdf_page_out_of_range "data/giam_cuong.pdf" "content/giam_cuong.png" 5 5 2
    (by norm_num) (by norm_num)

/-- C9: every row emitted by `load_rows` carries the synthesized image
filename: book code, "_page_", the zero-padded page number and ".png";
no field of the input JSON enters this name. -/
theorem load_rows_image_name (j : OcrJson) (bc : String) (v p : Int) (ie : Bool)
    (vp pp cp : Nat) (r : Row) (h : r ∈ load_rows j bc v p ie vp pp cp) :
    r.image_name = bc ++ "_page_" ++ zfill (toString p) pp ++ ".png" := by
  simp only [load_rows] at h
  exact loadRowsAux_image_name bc v p ie vp pp cp _ _ (j.rec_texts.getD []) 1 r h

theorem load_rows_image_name_witness :
    ({ id := "B.1.1.1", image_name := "B_page_1.png", han_char := "a",
       image_box := "" } : Row).image_name =
      "B" ++ "_page_" ++ zfill (toString (1 : Int)) 1 ++ ".png" :=
  load_rows_image_name ⟨none, some [.str "a"], none⟩ "B" 1 1 false 1 1 1 _ (by decide)

/-- C10: a candidate stem that is a single digit-only segment has an empty
underscore-joined prefix, and `infer_book_and_volume` falls back to the
whole stem as the book code together with the parsed volume. -/
theorem infer_digit_only_stem (stem : String)
    (h1 : splitOnChar '_' stem.data = [stem.data])
    (h2 : pyIsDigitStr stem.data = true) :
    infer_book_and_volume stem = (stem, Int.ofNat (decValue stem.data)) := by
  simp only [infer_book_and_volume]
  rw [h1]
  simp [h2, joinChar]

theorem infer_digit_only_stem_witness :
    infer_book_and_volume "7" = ("7", Int.ofNat (decValue "7".data)) :=
  infer_digit_only_stem "7" (by decide) (by decide)

theorem infer_book_and_volume_amended_witness :
    infer_book_and_volume "giam_cuong_7" =
      (if String.mk (joinChar '_' (splitOnChar '_' "giam_cuong_7".data).dropLast) = ""
       then "giam_cuong_7"
       else String.mk (joinChar '_' (splitOnChar '_' "giam_cuong_7".data).dropLast),
       Int.ofNat (decValue ((splitOnChar '_' "giam_cuong_7".data).getLastD []))) :=
  (infer_book_and_volume_amended.1 "giam_cuong_7").1 (by decide)
